import Mathlib

set_option maxRecDepth 100000

set_option linter.unusedVariables false

/-!
Shallow embedding of `asciichartpy.plot` (src/asciichartpy/__init__.py).

Python numbers are modelled by exact rationals (`Q`, an unnormalised
fraction with positive denominator, kept kernel-computable on purpose);
a missing sample (NaN) is `Option.none`.  Python run-time failures are
modelled by `Except PyErr`.  Because the reference implementation extends
the caller's list in place (`series += ...`), the embedded `plot` returns
the rendered result together with the caller-visible series after the call.
-/

namespace Asciichart

/-- Run-time errors the embedded code can raise, mirroring the Python
exceptions `TypeError`, `IndexError`, `NameError` and `ValueError`. -/
inductive PyErr where
  | typeError
  | indexError
  | nameError
  | valueError
  deriving DecidableEq, Repr

instance {ε α : Type} [DecidableEq ε] [DecidableEq α] : DecidableEq (Except ε α) := fun a b =>
  match a, b with
  | .ok x, .ok y =>
      if h : x = y then isTrue (by rw [h]) else isFalse (by intro hc; cases hc; exact h rfl)
  | .error x, .error y =>
      if h : x = y then isTrue (by rw [h]) else isFalse (by intro hc; cases hc; exact h rfl)
  | .ok _, .error _ => isFalse (by intro hc; cases hc)
  | .error _, .ok _ => isFalse (by intro hc; cases hc)

/-- Exact rational numbers as unnormalised fractions with a positive
denominator.  (Mathlib's `ℚ` normalises through `Nat.gcd`, which the
kernel cannot evaluate; this type keeps every chart computation
kernel-computable.) -/
structure Q where
  num : ℤ
  den : ℤ
  pos : 0 < den

instance : DecidableEq Q := fun a b =>
  if h : a.num = b.num ∧ a.den = b.den then
    isTrue (by cases a; cases b; cases h.1; cases h.2; rfl)
  else
    isFalse (by intro hc; cases hc; exact h ⟨rfl, rfl⟩)

def Q.ofInt (n : ℤ) : Q := ⟨n, 1, one_pos⟩

instance : OfNat Q n := ⟨Q.ofInt n⟩

def Q.add (a b : Q) : Q := ⟨a.num * b.den + b.num * a.den, a.den * b.den, mul_pos a.pos b.pos⟩

def Q.sub (a b : Q) : Q := ⟨a.num * b.den - b.num * a.den, a.den * b.den, mul_pos a.pos b.pos⟩

def Q.mul (a b : Q) : Q := ⟨a.num * b.num, a.den * b.den, mul_pos a.pos b.pos⟩

def Q.neg (a : Q) : Q := ⟨-a.num, a.den, a.pos⟩

/-- Exact division; the zero-divisor branch is unreachable in the embedded
code (every division in the source is guarded). -/
def Q.div (a b : Q) : Q :=
  if h : 0 < b.num then ⟨a.num * b.den, a.den * b.num, mul_pos a.pos h⟩
  else if h2 : b.num < 0 then ⟨-(a.num * b.den), a.den * (-b.num), mul_pos a.pos (by omega)⟩
  else ⟨0, 1, one_pos⟩

instance : Add Q := ⟨Q.add⟩
instance : Sub Q := ⟨Q.sub⟩
instance : Mul Q := ⟨Q.mul⟩
instance : Neg Q := ⟨Q.neg⟩
instance : Div Q := ⟨Q.div⟩

instance : LT Q := ⟨fun a b => a.num * b.den < b.num * a.den⟩
instance : LE Q := ⟨fun a b => a.num * b.den ≤ b.num * a.den⟩

instance (a b : Q) : Decidable (a < b) :=
  inferInstanceAs (Decidable (a.num * b.den < b.num * a.den))

instance (a b : Q) : Decidable (a ≤ b) :=
  inferInstanceAs (Decidable (a.num * b.den ≤ b.num * a.den))

/-- Value-level zero test (`0` has many representations in `Q`). -/
def Q.isZero (a : Q) : Bool := a.num = 0

/-- `math.floor`, exact on rationals: `Int.fdiv` is floor division and the
denominator is positive. -/
def Q.floor (a : Q) : ℤ := Int.fdiv a.num a.den

/-- `math.ceil`. -/
def Q.ceil (a : Q) : ℤ := -(Int.fdiv (-a.num) a.den)

/-- Python 3 `round` to an integer: round-half-to-even. -/
def pyRound (q : Q) : ℤ :=
  let f := q.floor
  let r := q - Q.ofInt f
  if r < Q.mk 1 2 two_pos then f
  else if Q.mk 1 2 two_pos < r then f + 1
  else if f % 2 = 0 then f else f + 1

/-- Python `int(...)` applied to a float: truncation toward zero. -/
def pyIntTrunc (q : Q) : ℤ := if Q.ofInt 0 ≤ q then q.floor else -(Q.neg q).floor

/-- Python `max` of two values (returns the first argument on ties). -/
def qMax (a b : Q) : Q := if b ≤ a then a else b

/-- Python `min` of two values (returns the first argument on ties). -/
def qMin (a b : Q) : Q := if a ≤ b then a else b

/-- `min` over a nonempty iterable, folding left as CPython does.  The
empty case is unreachable in `plot` (guarded by the all-NaN early return). -/
def listMinQ : List Q → Q
  | [] => Q.ofInt 0
  | v :: vs => vs.foldl (fun acc x => if x < acc then x else acc) v

/-- `max` over a nonempty iterable. -/
def listMaxQ : List Q → Q
  | [] => Q.ofInt 0
  | v :: vs => vs.foldl (fun acc x => if acc < x then x else acc) v

/-- The local helper `clamp(n)` of `plot`: `min(max(n, minimum), maximum)`. -/
def clampQ (minimum maximum n : Q) : Q := qMin (qMax n minimum) maximum

/-- A value the `color` configuration key can hold: a single escape string
or a pair of them (the default is the pair `('', '')`). -/
inductive ColorVal where
  | str (s : String)
  | pair (a b : String)
  deriving DecidableEq

/-- Python truthiness of a color value: an empty string is falsy, a
two-tuple is always truthy. -/
def colorTruthy : ColorVal → Bool
  | .str s => s ≠ ""
  | .pair _ _ => true

/-- Python `color[i]`: tuple indexing, or string indexing (a one-character
string, `IndexError` past the end). -/
def colorGet (c : ColorVal) (i : ℕ) : Except PyErr String :=
  match c with
  | .pair a b => if i = 0 then .ok a else if i = 1 then .ok b else .error .indexError
  | .str s =>
      match s.toList.get? i with
      | some ch => .ok (String.mk [ch])
      | none => .error .indexError

/-- Python `s + color` where `s` is a string: succeeds on a string color,
raises `TypeError` on a tuple. -/
def strAddColor (s : String) (c : ColorVal) : Except PyErr String :=
  match c with
  | .str t => .ok (s ++ t)
  | .pair _ _ => .error .typeError

/-- Python truthiness of the `threshold` entry: absent or zero is falsy. -/
def thrTruthy : Option Q → Bool
  | none => false
  | some q => !q.isZero

/-- Python `v > t` where `v` may be NaN (`none`): NaN comparisons are false. -/
def pyGtOpt (v : Option Q) (t : Option Q) : Bool :=
  match v, t with
  | some a, some b => decide (b < a)
  | _, _ => false

/-- Resolve a Python list index: nonnegative in range, or negative within
`-len .. -1` (wrapping), else out of range. -/
def pyIdx (n : ℕ) (i : ℤ) : Option ℕ :=
  if 0 ≤ i ∧ i < (n : ℤ) then some i.toNat
  else if -(n : ℤ) ≤ i ∧ i < 0 then some (i + n).toNat
  else none

/-- Python `xs[i]` on a list. -/
def pyListGet {α : Type} (xs : List α) (i : ℤ) : Except PyErr α :=
  match pyIdx xs.length i with
  | some k =>
      match xs.get? k with
      | some v => .ok v
      | none => .error .indexError
  | none => .error .indexError

/-- The character canvas: a list of rows, each row a list of cells; a cell
holds a string (labels occupy a single cell, as in the Python list). -/
abbrev Canvas := List (List String)

/-- Python `result[i][j] = v`: fetch row `i`, assign column `j`. -/
def pySetCell (cv : Canvas) (i j : ℤ) (v : String) : Except PyErr Canvas :=
  match pyIdx cv.length i with
  | none => .error .indexError
  | some k =>
      let row := cv.getD k []
      match pyIdx row.length j with
      | none => .error .indexError
      | some l => .ok (cv.set k (row.set l v))

/-- Read a canvas cell (used only in theorem statements). -/
def cellAt (cv : Canvas) (i j : ℤ) : String := (cv.getD i.toNat []).getD j.toNat ""

/-- Python `str.rstrip()`: drop trailing whitespace. -/
def pyRstrip (s : String) : String :=
  String.mk ((s.toList.reverse.dropWhile Char.isWhitespace).reverse)

/-- Python `sep.join(rows)`. -/
def pyJoin (sep : String) : List String → String
  | [] => ""
  | [r] => r
  | r :: rest => r ++ sep ++ pyJoin sep rest

/-- Substring test (used only in theorem statements). -/
def strContains (s pat : String) : Bool :=
  (List.range (s.length + 1)).any fun i => pat.toList.isPrefixOf (s.toList.drop i)

/-- The integers `a, a+1, ..., b-1`, i.e. Python `range(a, b)`. -/
def intRange (a b : ℤ) : List ℤ :=
  (List.range (b - a).toNat).map fun (i : ℕ) => a + (i : ℤ)

/-- Python `range(0, l, q)` for `q > 0`: the block start indices. -/
def rangeStepIdx (l q : ℕ) : List ℕ := (List.range ((l + q - 1) / q)).map (· * q)

/-- Python `sum` over a slice: any NaN makes the sum NaN. -/
def sumNaN (xs : List (Option Q)) : Option Q :=
  xs.foldl (fun acc x =>
    match acc, x with
    | some a, some b => some (a + b)
    | _, _ => none) (some (Q.ofInt 0))

/-- The default symbol list of the source. -/
def defaultSymbols : List String :=
  ["┼", "┤", "╶", "╴", "─", "╰", "╭", "╮", "╯", "│"]

/-- The default label placeholder `'{:8.2f} '` (old-style spec text aside):
fixed two decimals, right-aligned in an 8-character field, trailing space. -/
def fmtDefault (q : Q) : String :=
  let n : ℤ := pyRound (q * Q.ofInt 100)
  let sgn := if n < 0 then "-" else ""
  let a := n.natAbs
  let ip := toString (a / 100)
  let fp := a % 100
  let fps := (if fp < 10 then "0" else "") ++ toString fp
  let core := sgn ++ ip ++ "." ++ fps
  let pad := String.mk (List.replicate (8 - core.length) ' ')
  pad ++ core ++ " "

/-- The `cfg` dictionary: every key the source reads, all optional. -/
structure Config where
  minimum : Option Q := none
  maximum : Option Q := none
  height : Option Q := none
  offset : Option ℤ := none
  symbols : Option (List String) := none
  color : Option ColorVal := none
  threshold : Option Q := none
  width : Option ℤ := none
  format : Option (Q → String) := none

/-- The axis-tick cell value for one row of the axis loop: the nested
`color`/`threshold` conditional of the source, with `isZero` standing for
`y == 0`.  `lastVal` is `series[-1]` (the original series). -/
def axisTick (symbols : List String) (color : ColorVal) (threshold lastVal : Option Q)
    (isZero : Bool) : Except PyErr String :=
  if colorTruthy color then
    if thrTruthy threshold then
      if pyGtOpt lastVal threshold then
        if isZero then do
          let s ← pyListGet symbols 0
          strAddColor s color
        else do
          let s ← pyListGet symbols 1
          let c ← colorGet color 0
          pure (s ++ c)
      else
        if isZero then do
          let s ← pyListGet symbols 0
          strAddColor s color
        else do
          let s ← pyListGet symbols 1
          let c ← colorGet color 1
          pure (s ++ c)
    else
      if isZero then do
        let s ← pyListGet symbols 0
        strAddColor s color
      else do
        let s ← pyListGet symbols 1
        strAddColor s color
  else
    if isZero then pyListGet symbols 0 else pyListGet symbols 1

/-- The block-average comprehension
`[sum(series[i:i+Q])//Q for i in range(0, len(series), Q)]`.
`range` raises `ValueError` on a zero step and is empty on a negative one. -/
def blockAverage (series : List (Option Q)) (q : ℤ) : Except PyErr (List (Option Q)) :=
  if q = 0 then .error .valueError
  else if q < 0 then .ok []
  else .ok ((rangeStepIdx series.length q.toNat).map fun i =>
    (sumNaN ((series.drop i).take q.toNat)).map fun s =>
      Q.ofInt ((s / Q.ofInt q).floor))

/-- The resampling block of `plot` (the `if width:` block).  `w` is the
local `width` at that point, which the source has already overwritten with
`len(series) + offset`.  Returns the averaged series (or the error raised)
together with the caller-visible series, which the `series += ...` line
extends in place.  The `else` branch evaluates the undefined name `lene`. -/
def resampleBlock (series : List (Option Q)) (w : ℤ) :
    Except PyErr (List (Option Q)) × List (Option Q) :=
  if w ≠ 0 then
    if Int.fmod (series.length : ℤ) w ≠ 0 then
      let q : ℤ := pyIntTrunc (Q.ofInt series.length / Q.ofInt w) + 1
      let z : ℤ := q * 30 - (series.length : ℤ)
      let padded := series ++ List.replicate z.toNat (series.getLastD none)
      (blockAverage padded q, padded)
    else
      (.error .nameError, series)
  else (.ok series, series)

/-- One iteration of the line-drawing loop of `plot`, for the consecutive
pair `(d0, d1)` at positions `(x, x+1)` of the (resampled) series. -/
def drawPair (symbols : List String) (rows offset : ℤ) (scaledF : Q → ℤ)
    (cv : Canvas) (x : ℕ) (d0 d1 : Option Q) : Except PyErr Canvas :=
  match d0, d1 with
  | none, none => .ok cv
  | none, some v1 => do
      let s ← pyListGet symbols 2
      pySetCell cv (rows - scaledF v1) ((x : ℤ) + offset) s
  | some v0, none => do
      let s ← pyListGet symbols 3
      pySetCell cv (rows - scaledF v0) ((x : ℤ) + offset) s
  | some v0, some v1 =>
      let y0 := scaledF v0
      let y1 := scaledF v1
      if y0 = y1 then do
        let s ← pyListGet symbols 4
        pySetCell cv (rows - y0) ((x : ℤ) + offset) s
      else do
        let sA ← pyListGet symbols (if y1 < y0 then 5 else 6)
        let cv ← pySetCell cv (rows - y1) ((x : ℤ) + offset) sA
        let sB ← pyListGet symbols (if y1 < y0 then 7 else 8)
        let cv ← pySetCell cv (rows - y0) ((x : ℤ) + offset) sB
        (intRange (min y0 y1 + 1) (max y0 y1)).foldlM
          (fun c y => do
            let s ← pyListGet symbols 9
            pySetCell c (rows - y) ((x : ℤ) + offset) s) cv

/-- The full line-drawing loop `for x in range(len(series) - 1)`. -/
def drawLine (symbols : List String) (rows offset : ℤ) (scaledF : Q → ℤ)
    (cv : Canvas) (series2 : List (Option Q)) : Except PyErr Canvas :=
  (List.range (series2.length - 1)).foldlM
    (fun c x => drawPair symbols rows offset scaledF c x
      (series2.getD x none) (series2.getD (x + 1) none)) cv

/-- `minimum` after configuration resolution:
`cfg.get('minimum', min(filter(_isnum, series)))`. -/
def resolvedMin (series : List (Option Q)) (cfg : Config) : Q :=
  cfg.minimum.getD (listMinQ (series.filterMap id))

/-- `maximum` after configuration resolution. -/
def resolvedMax (series : List (Option Q)) (cfg : Config) : Q :=
  cfg.maximum.getD (listMaxQ (series.filterMap id))

/-- The embedded `plot`, producing the stripped canvas rows (before the
final join).  The second component is the caller-visible series after the
call: the resampling stage pads the caller's list in place. -/
def plotCore (series0 : List (Option Q)) (cfg : Config) :
    Except PyErr (List String) × List (Option Q) :=
  if series0.length = 0 ∨ series0.all Option.isNone = true then (.ok [], series0)
  else
    let minimum := resolvedMin series0 cfg
    let maximum := resolvedMax series0 cfg
    let symbols := cfg.symbols.getD defaultSymbols
    if maximum < minimum then (.error .valueError, series0)
    else
      let interval := maximum - minimum
      let offset := cfg.offset.getD 3
      let height := cfg.height.getD interval
      let ratio := if Q.ofInt 0 < interval then height / interval else Q.ofInt 1
      let threshold := cfg.threshold
      let color := cfg.color.getD (ColorVal.pair "" "")
      let width := cfg.width
      let min2 : ℤ := (minimum * ratio).floor
      let max2 : ℤ := (maximum * ratio).ceil
      let rows : ℤ := max2 - min2
      let width : ℤ := (series0.length : ℤ) + offset
      let placeholder := cfg.format.getD fmtDefault
      let canvas0 : Canvas := List.replicate (rows + 1).toNat (List.replicate width.toNat " ")
      let lastVal := series0.getLastD none
      let tickZ := axisTick symbols color threshold lastVal true
      let tickN := axisTick symbols color threshold lastVal false
      let scaledF := fun (v : Q) => pyRound (clampQ minimum maximum v * ratio) - min2
      let axisRes := (intRange min2 (max2 + 1)).foldlM (fun cv y => do
          let label := placeholder (maximum -
            (Q.ofInt (y - min2) * interval / (if rows = 0 then Q.ofInt 1 else Q.ofInt rows)))
          let cv ← pySetCell cv (y - min2) (max (offset - (label.length : ℤ)) 0) label
          let t ← if y = 0 then tickZ else tickN
          pySetCell cv (y - min2) (offset - 1) t) canvas0
      let afterFirst : Except PyErr Canvas := do
        let cv ← axisRes
        match series0.headD none with
        | some v =>
          if thrTruthy threshold then
            if pyGtOpt lastVal threshold then do
              let s ← pyListGet symbols 0
              let c ← colorGet color 0
              pySetCell cv (rows - scaledF v) (offset - 1) (s ++ c)
            else do
              let s ← pyListGet symbols 0
              let c ← colorGet color 1
              pySetCell cv (rows - scaledF v) (offset - 1) (s ++ c)
          else pure cv
        | none => pure cv
      match afterFirst with
      | .error e => (.error e, series0)
      | .ok cv =>
        let rs := resampleBlock series0 width
        match rs.1 with
        | .error e => (.error e, rs.2)
        | .ok series2 =>
          match drawLine symbols rows offset scaledF cv series2 with
          | .error e => (.error e, rs.2)
          | .ok cvF => (.ok (cvF.map fun row => pyRstrip (String.join row)), rs.2)

/-- The embedded `plot`: the stripped rows joined with the literal
separator `'\033[0m\n'` of the source's final line. -/
def plot (series : List (Option Q)) (cfg : Config) :
    Except PyErr String × List (Option Q) :=
  let r := plotCore series cfg
  (r.1.map (pyJoin "\x1b[0m\n"), r.2)

/-- Shorthand for a present (non-NaN) integer sample. -/
def oiq (n : ℤ) : Option Q := some (Q.ofInt n)

/-- The docstring's example series `[1,2,3,4,nan,4,3,2,1]`. -/
def ex9 : List (Option Q) := [oiq 1, oiq 2, oiq 3, oiq 4, none, oiq 4, oiq 3, oiq 2, oiq 1]

/-- A 30-sample series (long enough for the hardcoded padding not to
overrun the canvas). -/
def series30 : List (Option Q) := oiq 1 :: List.replicate 29 (oiq 2)

/-- The series `[1..90]` of the spec's resampling scenario. -/
def oneTo90 : List (Option Q) := (List.range 90).map fun (i : ℕ) => oiq ((i : ℤ) + 1)

/-- A configuration with only a threshold (no color configured). -/
def cfgThr : Config := {threshold := some (Q.ofInt 1)}

/-- A configuration whose color is a plain escape string. -/
def cfgC : Config := {color := some (ColorVal.str "C")}

/-- A configuration with a caller-supplied inverted range. -/
def cfg8 : Config := {minimum := some (Q.ofInt 5), maximum := some (Q.ofInt 2)}

/-- The rows `plotCore` produces for `series30` under `cfgC`. -/
def c3rows : List String :=
  ["    2.00  ┤C╭────────────────────────────", "    1.00  ┤C╯"]

/-- A sample scaling function as `plot` builds it, for the range `[0, 4]`
with ratio `1` and `min2 = 0`. -/
def scaled0 : Q → ℤ := fun v => pyRound (clampQ (Q.ofInt 0) (Q.ofInt 4) v * Q.ofInt 1)

/-- A blank 5-row, 8-column canvas. -/
def cvW : Canvas := List.replicate 5 (List.replicate 8 " ")

/-! Helper lemmas about list update and the Python indexing primitives. -/

theorem getD_set_self {α : Type} (l : List α) (k : ℕ) (v d : α) (h : k < l.length) :
    (l.set k v).getD k d = v := by
  induction l generalizing k with
  | nil => simp at h
  | cons a t ih =>
    cases k with
    | zero => simp
    | succ n => simpa using ih n (by simpa using h)

theorem getD_set_ne {α : Type} (l : List α) (k k' : ℕ) (v d : α) (h : k ≠ k') :
    (l.set k v).getD k' d = l.getD k' d := by
  induction l generalizing k k' with
  | nil => simp
  | cons a t ih =>
    cases k with
    | zero =>
      cases k' with
      | zero => exact absurd rfl h
      | succ m => simp
    | succ n =>
      cases k' with
      | zero => simp
      | succ m => simpa using ih n m (by omega)

theorem get?_eq_some_getD {α : Type} (l : List α) (k : ℕ) (d : α) (h : k < l.length) :
    l.get? k = some (l.getD k d) := by
  induction l generalizing k with
  | nil => simp at h
  | cons a t ih =>
    cases k with
    | zero => rfl
    | succ n => exact ih n (by simpa using h)

theorem pyIdx_inb (n : ℕ) (i : ℤ) (h0 : 0 ≤ i) (h1 : i < (n : ℤ)) :
    pyIdx n i = some i.toNat := by
  unfold pyIdx
  rw [if_pos ⟨h0, h1⟩]

theorem pyListGet_str (xs : List String) (i : ℤ) (h0 : 0 ≤ i) (h1 : i < (xs.length : ℤ)) :
    pyListGet xs i = .ok (xs.getD i.toNat "") := by
  have hk : i.toNat < xs.length := by omega
  simp only [pyListGet, pyIdx_inb xs.length i h0 h1, get?_eq_some_getD xs i.toNat "" hk]

theorem pySetCell_inb (cv : Canvas) (i j : ℤ) (v : String)
    (hi0 : 0 ≤ i) (hi : i < (cv.length : ℤ)) (hj0 : 0 ≤ j)
    (hj : j < (((cv.getD i.toNat []).length : ℤ))) :
    pySetCell cv i j v = .ok (cv.set i.toNat ((cv.getD i.toNat []).set j.toNat v)) := by
  simp only [pySetCell, pyIdx_inb cv.length i hi0 hi,
    pyIdx_inb (cv.getD i.toNat []).length j hj0 hj]

theorem cellAt_set_self (cv : Canvas) (i j : ℤ) (v : String)
    (hi0 : 0 ≤ i) (hi : i < (cv.length : ℤ)) (hj0 : 0 ≤ j)
    (hj : j < (((cv.getD i.toNat []).length : ℤ))) :
    cellAt (cv.set i.toNat ((cv.getD i.toNat []).set j.toNat v)) i j = v := by
  unfold cellAt
  rw [getD_set_self cv i.toNat ((cv.getD i.toNat []).set j.toNat v) [] (by omega)]
  rw [getD_set_self (cv.getD i.toNat []) j.toNat v "" (by omega)]

theorem cellAt_set_ne_row (cv : Canvas) (k : ℕ) (r : List String) (i j : ℤ)
    (hne : i.toNat ≠ k) :
    cellAt (cv.set k r) i j = cellAt cv i j := by
  unfold cellAt
  rw [getD_set_ne cv k i.toNat r [] (fun h => hne h.symm)]

theorem intRange_mem (a b y : ℤ) : y ∈ intRange a b ↔ a ≤ y ∧ y < b := by
  unfold intRange
  rw [List.mem_map]
  constructor
  · rintro ⟨i, hi, rfl⟩
    rw [List.mem_range] at hi
    omega
  · intro h
    exact ⟨(y - a).toNat, List.mem_range.mpr (by omega), by omega⟩

/-! The claims. -/

/-- C1: the claim says every non-empty series with a real value renders to
`rows+1` newline-separated lines; in fact the default configuration makes
the axis loop concatenate a tick glyph with the default color tuple
`('', '')`, raising `TypeError` on the docstring's own example (the
caller's series is left untouched because the failure precedes padding). -/
theorem c1_default_config_raises :
    plot ex9 {} = (.error .typeError, ex9) := by decide

/-- C2: the claim says resampling is active only when a target width is
configured and that `[1..90]` with `width = 30` renders 30 columns wide;
in fact the source overwrites the configured width with
`len(series) + offset`, so the configuration key is ignored entirely
(second conjunct) and the block-averaging of `[1..90]` runs at the
overwritten width `93`, producing 90 samples, not 30 (first conjunct). -/
theorem c2_width_config_ignored :
    (resampleBlock oneTo90 93).1.map List.length = .ok 90 ∧
    ∀ (series : List (Option Q)) (cfg : Config) (w : Option ℤ),
      plot series {cfg with width := w} = plot series {cfg with width := none} := by
  refine ⟨by decide, fun series cfg w => rfl⟩

/-- C4: the claim says `plot` never mutates the caller's series; in fact
the resampling block executes `series += ...` on the caller's list, so a
2-sample series comes back 30 samples long (padded with its final value). -/
theorem c4_caller_series_padded :
    (plot [oiq 1, oiq 3] cfgC).2 = [oiq 1, oiq 3] ++ List.replicate 28 (oiq 3) ∧
    (plot [oiq 1, oiq 3] cfgC).2 ≠ [oiq 1, oiq 3] := by decide

/-- C5: the claim says two successive calls on the same series object and
configuration yield byte-identical output; in fact the first call pads the
caller's 2-sample list to 30 samples in place and then dies with
`IndexError`, while the second call (on the now-padded list) succeeds, so
the two calls do not agree. -/
theorem c5_not_idempotent :
    (plot [oiq 2, oiq 5] cfgC).1 = .error .indexError ∧
    (plot (plot [oiq 2, oiq 5] cfgC).2 cfgC).1 ≠ (plot [oiq 2, oiq 5] cfgC).1 := by decide

/-- C6: the claim says every canvas write during rendering is in bounds;
in fact the hardcoded padding to 30 samples makes the drawing loop write
at column `x + offset` up to `29 + offset` on a canvas only
`len(series) + offset` columns wide, raising `IndexError` for the
two-sample series `[0, 1]`. -/
theorem c6_out_of_bounds_write :
    (plot [oiq 0, oiq 1] {color := some (ColorVal.str "X")}).1 = .error .indexError := by
  decide

/-- C9: an empty series, or one whose samples are all missing, yields
exactly the empty string (and the untouched series), for every
configuration — the guard runs before anything else. -/
theorem c9_empty_input (series : List (Option Q)) (cfg : Config)
    (h : series.length = 0 ∨ series.all Option.isNone = true) :
    plot series cfg = (.ok "", series) := by
  simp only [plot, plotCore, if_pos h]
  rfl

/-- C9 witness: the empty series under the empty configuration, and an
all-NaN series under an invalid range, both return the empty string. -/
theorem c9_empty_input_witness :
    plot [] {} = (.ok "", []) ∧ plot [none, none] cfg8 = (.ok "", [none, none]) :=
  ⟨c9_empty_input [] {} (Or.inl rfl), c9_empty_input [none, none] cfg8 (Or.inr (by decide))⟩

/-- C10: configuring `threshold` as `0` behaves exactly like omitting the
key, for every series and configuration, because the source tests the
threshold with Python truthiness (`if threshold:`) in both the axis-tick
coloring and the first-sample tick mark. -/
theorem c10_threshold_zero_as_none (series : List (Option Q)) (cfg : Config) :
    plot series {cfg with threshold := some (Q.ofInt 0)} =
    plot series {cfg with threshold := none} := rfl

/-- C3 counterexample: a successful render of a 30-sample series with a
threshold configured but the color key untouched still carries the
terminal reset sequence, because the source joins the rows with
`'\033[0m\n'`; in particular the output is not the rows joined by a plain
newline. -/
theorem c3_reset_without_color :
    cfgThr.color = none ∧
    (plot series30 cfgThr).1.map (fun t => strContains t "\x1b[0m") = .ok true ∧
    (plot series30 cfgThr).1 ≠ ((plotCore series30 cfgThr).1.map (pyJoin "\n")) :=
  ⟨rfl, by decide, by decide⟩

/-- C3 (amended): for every successful render, the returned text is the
stripped canvas rows joined by the separator `'\033[0m\n'` (reset then
newline), with no separator after the final row; consequently the reset
sequence appears between every adjacent pair of rows whether or not color
was configured. -/
theorem c3_join_amended (series : List (Option Q)) (cfg : Config) (rs : List String)
    (h : (plotCore series cfg).1 = .ok rs) :
    (plot series cfg).1 = .ok (pyJoin "\x1b[0m\n" rs) ∧
    (2 ≤ rs.length → ∃ a b : String, pyJoin "\x1b[0m\n" rs = a ++ "\x1b[0m\n" ++ b) := by
  constructor
  · show ((plotCore series cfg).1.map (pyJoin "\x1b[0m\n")) = _
    rw [h]
    rfl
  · intro h2
    match rs, h2 with
    | r0 :: r1 :: rest, _ => exact ⟨r0, pyJoin "\x1b[0m\n" (r1 :: rest), rfl⟩

/-- C3 witness: the amended serializer statement applied at a concrete
successful render (string color configured, two canvas rows). -/
theorem c3_join_amended_witness :
    (plot series30 cfgC).1 = .ok (pyJoin "\x1b[0m\n" c3rows) ∧
    (2 ≤ c3rows.length → ∃ a b : String, pyJoin "\x1b[0m\n" c3rows = a ++ "\x1b[0m\n" ++ b) :=
  c3_join_amended series30 cfgC c3rows (by decide)

/-- C8: when the resolved minimum exceeds the resolved maximum, `plot`
raises `ValueError` before any rendering work: the result is the bare
error and the caller's series is untouched. -/
theorem c8_invalid_range (series : List (Option Q)) (cfg : Config)
    (h1 : ¬(series.length = 0 ∨ series.all Option.isNone = true))
    (h2 : resolvedMax series cfg < resolvedMin series cfg) :
    plot series cfg = (.error .valueError, series) := by
  simp only [plot, plotCore, if_neg h1, if_pos h2]
  rfl

/-- C8 witness: a one-sample series with caller-supplied `minimum = 5`,
`maximum = 2` fails with the range error. -/
theorem c8_invalid_range_witness :
    plot [oiq 1] cfg8 = (.error .valueError, [oiq 1]) :=
  c8_invalid_range [oiq 1] cfg8 (by decide) (by decide)

/-! Machinery for the per-pair drawing analysis (claim C7). -/

theorem exc_bind_ok {ε α β : Type} (a : α) (f : α → Except ε β) :
    ((Except.ok a : Except ε α) >>= f) = f a := rfl

theorem rect_set (cv : Canvas) (k l : ℕ) (v : String) (W : ℕ)
    (hrect : ∀ t : ℕ, t < cv.length → (cv.getD t []).length = W) (hk : k < cv.length) :
    ∀ t : ℕ, t < (cv.set k ((cv.getD k []).set l v)).length →
      ((cv.set k ((cv.getD k []).set l v)).getD t []).length = W := by
  intro t ht
  rw [List.length_set] at ht
  by_cases htk : t = k
  · subst htk
    rw [getD_set_self cv t ((cv.getD t []).set l v) [] hk, List.length_set]
    exact hrect t hk
  · rw [getD_set_ne cv k t ((cv.getD k []).set l v) [] (fun hh => htk hh.symm)]
    exact hrect t ht

/-- The vertical-fill loop of one steep step: every targeted row of the
column receives glyph 9, every other row of the canvas is untouched, and
the canvas dimensions are preserved. -/
theorem fillFold (symbols : List String) (rows colI : ℤ)
    (hsym : (9 : ℤ) < (symbols.length : ℤ)) (hc0 : 0 ≤ colI) :
    ∀ (ys : List ℤ) (cv : Canvas) (W : ℕ),
      (∀ k : ℕ, k < cv.length → (cv.getD k []).length = W) →
      colI < (W : ℤ) →
      (∀ y ∈ ys, 0 ≤ rows - y ∧ rows - y < (cv.length : ℤ)) →
      ∃ cv', (ys.foldlM (fun c y => do
            let s ← pyListGet symbols 9
            pySetCell c (rows - y) colI s) cv) = .ok cv' ∧
        cv'.length = cv.length ∧
        (∀ k : ℕ, k < cv'.length → (cv'.getD k []).length = W) ∧
        (∀ y ∈ ys, cellAt cv' (rows - y) colI = symbols.getD 9 "") ∧
        (∀ i j : ℤ, 0 ≤ i → (∀ y ∈ ys, i ≠ rows - y) → cellAt cv' i j = cellAt cv i j) := by
  intro ys
  induction ys with
  | nil =>
    intro cv W hrect hcW hb
    exact ⟨cv, rfl, rfl, hrect, fun y hy => absurd hy (List.not_mem_nil y),
      fun i j _ _ => rfl⟩
  | cons y ys ih =>
    intro cv W hrect hcW hb
    obtain ⟨hr0, hrlt⟩ := hb y (List.mem_cons_self y ys)
    have hk : (rows - y).toNat < cv.length := by omega
    have hrowlen : ((cv.getD (rows - y).toNat []).length : ℤ) = (W : ℤ) := by
      rw [hrect _ hk]
    have hset : pySetCell cv (rows - y) colI (symbols.getD 9 "") =
        .ok (cv.set (rows - y).toNat
          ((cv.getD (rows - y).toNat []).set colI.toNat (symbols.getD 9 ""))) :=
      pySetCell_inb cv (rows - y) colI _ hr0 hrlt hc0 (by rw [hrowlen]; exact hcW)
    have hstep : (do
        let s ← pyListGet symbols 9
        pySetCell cv (rows - y) colI s) =
        Except.ok (cv.set (rows - y).toNat
          ((cv.getD (rows - y).toNat []).set colI.toNat (symbols.getD 9 ""))) := by
      rw [pyListGet_str symbols 9 (by omega) hsym, exc_bind_ok]
      exact hset
    have hlen1 : (cv.set (rows - y).toNat
        ((cv.getD (rows - y).toNat []).set colI.toNat (symbols.getD 9 ""))).length =
        cv.length := List.length_set cv _ _
    have hrect1 := rect_set cv (rows - y).toNat colI.toNat (symbols.getD 9 "") W hrect hk
    have hb1 : ∀ y' ∈ ys, 0 ≤ rows - y' ∧ rows - y' <
        ((cv.set (rows - y).toNat
          ((cv.getD (rows - y).toNat []).set colI.toNat (symbols.getD 9 ""))).length : ℤ) := by
      intro y' hy'
      have hx := hb y' (List.mem_cons_of_mem y hy')
      rw [hlen1]
      exact hx
    obtain ⟨cv', hfold, hlen', hrect', hfill', hpres'⟩ :=
      ih (cv.set (rows - y).toNat
        ((cv.getD (rows - y).toNat []).set colI.toNat (symbols.getD 9 ""))) W hrect1 hcW hb1
    refine ⟨cv', ?_, ?_, hrect', ?_, ?_⟩
    · rw [List.foldlM_cons, hstep, exc_bind_ok]
      exact hfold
    · rw [hlen', hlen1]
    · intro y' hy'
      rcases List.mem_cons.mp hy' with h1 | h2
      · subst h1
        by_cases hmem : ∃ y'' ∈ ys, rows - y' = rows - y''
        · obtain ⟨y'', hy'', heq⟩ := hmem
          rw [heq]
          exact hfill' y'' hy''
        · push_neg at hmem
          rw [hpres' (rows - y') colI hr0 hmem]
          exact cellAt_set_self cv (rows - y') colI _ hr0 hrlt hc0
            (by rw [hrowlen]; exact hcW)
      · exact hfill' y' h2
    · intro i j hi0 hnin
      rw [hpres' i j hi0 (fun y'' hy'' => hnin y'' (List.mem_cons_of_mem y hy''))]
      exact cellAt_set_ne_row cv _ _ i j (by
        have hx := hnin y (List.mem_cons_self y ys)
        omega)

/-- One steep step of the drawing loop: the two corner glyphs land at the
endpoint rows, glyph 9 fills the rows strictly between them (excluding
both endpoints), all in the same column. -/
theorem drawSteep (symbols : List String) (rows offset : ℤ) (cv : Canvas) (x : ℕ) (W : ℕ)
    (hsym : symbols.length = 10)
    (hrect : ∀ k : ℕ, k < cv.length → (cv.getD k []).length = W)
    (hc0 : 0 ≤ (x : ℤ) + offset) (hcW : (x : ℤ) + offset < (W : ℤ))
    (y0 y1 : ℤ) (iA iB : ℤ) (hiA : 0 ≤ iA) (hiA2 : iA < 10) (hiB : 0 ≤ iB) (hiB2 : iB < 10)
    (hne : y0 ≠ y1)
    (hb : ∀ y : ℤ, min y0 y1 ≤ y → y ≤ max y0 y1 →
      0 ≤ rows - y ∧ rows - y < (cv.length : ℤ)) :
    ∃ cv',
      (do
        let sA ← pyListGet symbols iA
        let cvA ← pySetCell cv (rows - y1) ((x : ℤ) + offset) sA
        let sB ← pyListGet symbols iB
        let cvB ← pySetCell cvA (rows - y0) ((x : ℤ) + offset) sB
        (intRange (min y0 y1 + 1) (max y0 y1)).foldlM
          (fun c y => do
            let s ← pyListGet symbols 9
            pySetCell c (rows - y) ((x : ℤ) + offset) s) cvB) = .ok cv' ∧
      cellAt cv' (rows - y1) ((x : ℤ) + offset) = symbols.getD iA.toNat "" ∧
      cellAt cv' (rows - y0) ((x : ℤ) + offset) = symbols.getD iB.toNat "" ∧
      (∀ y : ℤ, min y0 y1 + 1 ≤ y → y < max y0 y1 →
        cellAt cv' (rows - y) ((x : ℤ) + offset) = symbols.getD 9 "") := by
  obtain ⟨hb1a, hb1b⟩ := hb y1 (min_le_right y0 y1) (le_max_right y0 y1)
  obtain ⟨hb0a, hb0b⟩ := hb y0 (min_le_left y0 y1) (le_max_left y0 y1)
  have hk1 : (rows - y1).toNat < cv.length := by omega
  have hsymZ : (symbols.length : ℤ) = 10 := by rw [hsym]; rfl
  have hsA : pyListGet symbols iA = .ok (symbols.getD iA.toNat "") :=
    pyListGet_str symbols iA hiA (by omega)
  have hsB : pyListGet symbols iB = .ok (symbols.getD iB.toNat "") :=
    pyListGet_str symbols iB hiB (by omega)
  have hsetA : pySetCell cv (rows - y1) ((x : ℤ) + offset) (symbols.getD iA.toNat "") =
      .ok (cv.set (rows - y1).toNat
        ((cv.getD (rows - y1).toNat []).set ((x : ℤ) + offset).toNat
          (symbols.getD iA.toNat ""))) :=
    pySetCell_inb cv (rows - y1) ((x : ℤ) + offset) _ hb1a hb1b hc0
      (by rw [hrect _ hk1]; exact hcW)
  set cvA := cv.set (rows - y1).toNat
      ((cv.getD (rows - y1).toNat []).set ((x : ℤ) + offset).toNat
        (symbols.getD iA.toNat "")) with hcvA
  have hlenA : cvA.length = cv.length := List.length_set cv _ _
  have hrectA : ∀ t : ℕ, t < cvA.length → (cvA.getD t []).length = W :=
    rect_set cv (rows - y1).toNat ((x : ℤ) + offset).toNat (symbols.getD iA.toNat "") W
      hrect hk1
  have hk0 : (rows - y0).toNat < cvA.length := by rw [hlenA]; omega
  have hsetB : pySetCell cvA (rows - y0) ((x : ℤ) + offset) (symbols.getD iB.toNat "") =
      .ok (cvA.set (rows - y0).toNat
        ((cvA.getD (rows - y0).toNat []).set ((x : ℤ) + offset).toNat
          (symbols.getD iB.toNat ""))) :=
    pySetCell_inb cvA (rows - y0) ((x : ℤ) + offset) _ hb0a (by rw [hlenA]; exact hb0b) hc0
      (by rw [hrectA _ hk0]; exact hcW)
  set cvB := cvA.set (rows - y0).toNat
      ((cvA.getD (rows - y0).toNat []).set ((x : ℤ) + offset).toNat
        (symbols.getD iB.toNat "")) with hcvB
  have hlenB : cvB.length = cv.length := by
    rw [hcvB, List.length_set, hlenA]
  have hrectB : ∀ t : ℕ, t < cvB.length → (cvB.getD t []).length = W :=
    rect_set cvA (rows - y0).toNat ((x : ℤ) + offset).toNat (symbols.getD iB.toNat "") W
      hrectA hk0
  have hbF : ∀ y ∈ intRange (min y0 y1 + 1) (max y0 y1),
      0 ≤ rows - y ∧ rows - y < (cvB.length : ℤ) := by
    intro y hy
    obtain ⟨hy1, hy2⟩ := (intRange_mem _ _ y).mp hy
    have hx := hb y (by omega) (by omega)
    rw [hlenB]
    exact hx
  obtain ⟨cv', hfold, hlenF, hrectF, hfill, hpres⟩ :=
    fillFold symbols rows ((x : ℤ) + offset) (by omega) hc0
      (intRange (min y0 y1 + 1) (max y0 y1)) cvB W hrectB hcW hbF
  have hnotin1 : ∀ y ∈ intRange (min y0 y1 + 1) (max y0 y1), rows - y1 ≠ rows - y := by
    intro y hy
    obtain ⟨hy1, hy2⟩ := (intRange_mem _ _ y).mp hy
    rcases min_choice y0 y1 with hm | hm <;> rcases max_choice y0 y1 with hM | hM <;> omega
  have hnotin0 : ∀ y ∈ intRange (min y0 y1 + 1) (max y0 y1), rows - y0 ≠ rows - y := by
    intro y hy
    obtain ⟨hy1, hy2⟩ := (intRange_mem _ _ y).mp hy
    rcases min_choice y0 y1 with hm | hm <;> rcases max_choice y0 y1 with hM | hM <;> omega
  refine ⟨cv', ?_, ?_, ?_, ?_⟩
  · rw [hsA, exc_bind_ok, hsetA, exc_bind_ok, hsB, exc_bind_ok, hsetB, exc_bind_ok]
    exact hfold
  · rw [hpres (rows - y1) ((x : ℤ) + offset) hb1a hnotin1, hcvB]
    rw [cellAt_set_ne_row cvA (rows - y0).toNat _ (rows - y1) ((x : ℤ) + offset) (by omega)]
    rw [hcvA]
    exact cellAt_set_self cv (rows - y1) ((x : ℤ) + offset) _ hb1a hb1b hc0
      (by rw [hrect _ hk1]; exact hcW)
  · rw [hpres (rows - y0) ((x : ℤ) + offset) hb0a hnotin0, hcvB]
    exact cellAt_set_self cvA (rows - y0) ((x : ℤ) + offset) _ hb0a
      (by rw [hlenA]; exact hb0b) hc0 (by rw [hrectA _ hk0]; exact hcW)
  · intro y hyl hyr
    exact hfill y ((intRange_mem _ _ y).mpr ⟨hyl, hyr⟩)

/-- A single glyph write of the drawing loop (gap edges and flat steps). -/
theorem drawOne (symbols : List String) (rows colI : ℤ) (cv : Canvas) (W : ℕ)
    (hsym : symbols.length = 10)
    (hrect : ∀ k : ℕ, k < cv.length → (cv.getD k []).length = W)
    (hc0 : 0 ≤ colI) (hcW : colI < (W : ℤ))
    (idx : ℤ) (hidx0 : 0 ≤ idx) (hidx2 : idx < 10)
    (y : ℤ) (hy0 : 0 ≤ rows - y) (hylt : rows - y < (cv.length : ℤ)) :
    ∃ cv', (do
        let s ← pyListGet symbols idx
        pySetCell cv (rows - y) colI s) = .ok cv' ∧
      cellAt cv' (rows - y) colI = symbols.getD idx.toNat "" := by
  have hk : (rows - y).toNat < cv.length := by omega
  have hs : pyListGet symbols idx = .ok (symbols.getD idx.toNat "") :=
    pyListGet_str symbols idx hidx0 (by omega)
  refine ⟨cv.set (rows - y).toNat
      ((cv.getD (rows - y).toNat []).set colI.toNat (symbols.getD idx.toNat "")), ?_, ?_⟩
  · rw [hs, exc_bind_ok]
    exact pySetCell_inb cv (rows - y) colI _ hy0 hylt hc0 (by rw [hrect _ hk]; exact hcW)
  · exact cellAt_set_self cv (rows - y) colI _ hy0 hylt hc0 (by rw [hrect _ hk]; exact hcW)

/-- C7 (amended): one iteration of the drawing loop for the pair
`(d0, d1)` at positions `(x, x+1)` places, in column `x + offset`:
glyph 2 at `d1`'s row when `d0` is missing and `d1` present; glyph 3 at
`d0`'s row when `d0` is present and `d1` missing; glyph 4 at the shared
row when both map to the same row; and when the mapped rows differ, the
corner glyphs 5-8 at the two endpoint rows with glyph 9 filling every row
strictly between `min(y0,y1)+1` and `max(y0,y1)` exclusive of the upper
bound (the source's `range(min+1, max)`), so the upper endpoint keeps its
corner glyph. -/
theorem drawPair_cases (symbols : List String) (rows offset : ℤ) (scaledF : Q → ℤ)
    (cv : Canvas) (x : ℕ) (W : ℕ)
    (hsym : symbols.length = 10)
    (hrect : ∀ k : ℕ, k < cv.length → (cv.getD k []).length = W)
    (hc0 : 0 ≤ (x : ℤ) + offset) (hcW : (x : ℤ) + offset < (W : ℤ)) :
    (∀ v1, 0 ≤ rows - scaledF v1 → rows - scaledF v1 < (cv.length : ℤ) →
      ∃ cv', drawPair symbols rows offset scaledF cv x none (some v1) = .ok cv' ∧
        cellAt cv' (rows - scaledF v1) ((x : ℤ) + offset) = symbols.getD 2 "") ∧
    (∀ v0, 0 ≤ rows - scaledF v0 → rows - scaledF v0 < (cv.length : ℤ) →
      ∃ cv', drawPair symbols rows offset scaledF cv x (some v0) none = .ok cv' ∧
        cellAt cv' (rows - scaledF v0) ((x : ℤ) + offset) = symbols.getD 3 "") ∧
    (∀ v0 v1, scaledF v0 = scaledF v1 →
      0 ≤ rows - scaledF v0 → rows - scaledF v0 < (cv.length : ℤ) →
      ∃ cv', drawPair symbols rows offset scaledF cv x (some v0) (some v1) = .ok cv' ∧
        cellAt cv' (rows - scaledF v0) ((x : ℤ) + offset) = symbols.getD 4 "") ∧
    (∀ v0 v1, scaledF v0 ≠ scaledF v1 →
      (∀ y : ℤ, min (scaledF v0) (scaledF v1) ≤ y → y ≤ max (scaledF v0) (scaledF v1) →
        0 ≤ rows - y ∧ rows - y < (cv.length : ℤ)) →
      ∃ cv', drawPair symbols rows offset scaledF cv x (some v0) (some v1) = .ok cv' ∧
        cellAt cv' (rows - scaledF v1) ((x : ℤ) + offset) =
          symbols.getD (if scaledF v1 < scaledF v0 then 5 else 6) "" ∧
        cellAt cv' (rows - scaledF v0) ((x : ℤ) + offset) =
          symbols.getD (if scaledF v1 < scaledF v0 then 7 else 8) "" ∧
        (∀ y : ℤ, min (scaledF v0) (scaledF v1) + 1 ≤ y → y < max (scaledF v0) (scaledF v1) →
          cellAt cv' (rows - y) ((x : ℤ) + offset) = symbols.getD 9 "")) := by
  refine ⟨?_, ?_, ?_, ?_⟩
  · intro v1 hy0 hylt
    exact drawOne symbols rows ((x : ℤ) + offset) cv W hsym hrect hc0 hcW 2
      (by norm_num) (by norm_num) (scaledF v1) hy0 hylt
  · intro v0 hy0 hylt
    exact drawOne symbols rows ((x : ℤ) + offset) cv W hsym hrect hc0 hcW 3
      (by norm_num) (by norm_num) (scaledF v0) hy0 hylt
  · intro v0 v1 heq hy0 hylt
    simp only [drawPair]
    rw [if_pos heq]
    exact drawOne symbols rows ((x : ℤ) + offset) cv W hsym hrect hc0 hcW 4
      (by norm_num) (by norm_num) (scaledF v0) hy0 hylt
  · intro v0 v1 hne hb
    simp only [drawPair]
    rw [if_neg hne]
    by_cases hlt : scaledF v1 < scaledF v0
    · simp only [if_pos hlt]
      exact drawSteep symbols rows offset cv x W hsym hrect hc0 hcW
        (scaledF v0) (scaledF v1) 5 7 (by norm_num) (by norm_num) (by norm_num)
        (by norm_num) hne hb
    · simp only [if_neg hlt]
      exact drawSteep symbols rows offset cv x W hsym hrect hc0 hcW
        (scaledF v0) (scaledF v1) 6 8 (by norm_num) (by norm_num) (by norm_num)
        (by norm_num) hne hb

/-- C7 counterexample: for the steep rising pair `(0, 4)` on a five-row
default-symbol canvas, the cell at the upper endpoint row `rows - max(y0,y1)`
holds the corner glyph (symbol 6), not the vertical-fill glyph 9 the
claim's "inclusive of the upper bound" demands. -/
theorem c7_fill_upper_bound_not_inclusive :
    (drawPair defaultSymbols 4 3 scaled0 cvW 0 (some (Q.ofInt 0)) (some (Q.ofInt 4))).map
      (fun c => cellAt c 0 3) = .ok "╭" ∧
    (drawPair defaultSymbols 4 3 scaled0 cvW 0 (some (Q.ofInt 0)) (some (Q.ofInt 4))).map
      (fun c => cellAt c 0 3) ≠ .ok "│" := by decide

/-- C7 witness: the amended per-pair statement applied at a concrete gap
edge (missing left sample, present right sample on a blank canvas). -/
theorem drawPair_cases_witness :
    (drawPair defaultSymbols 4 3 scaled0 cvW 1 none (some (Q.ofInt 3))).map
      (fun c => cellAt c 1 4) = .ok "╶" := by
  obtain ⟨cv', hok, hcell⟩ :=
    (drawPair_cases defaultSymbols 4 3 scaled0 cvW 1 8 (by decide) (by decide)
      (by decide) (by decide)).1 (Q.ofInt 3) (by decide) (by decide)
  rw [hok]
  have e1 : (4 : ℤ) - scaled0 (Q.ofInt 3) = 1 := by decide
  have e2 : (((1 : ℕ) : ℤ)) + 3 = 4 := by decide
  have e3 : defaultSymbols.getD 2 "" = "╶" := by decide
  rw [e1, e2, e3] at hcell
  show Except.ok (cellAt cv' 1 4) = Except.ok "╶"
  rw [hcell]

end Asciichart
